import Mathlib

/-
Verification of the Cryptnox secure-channel engine (embarquech/cryptnox-sdk-arduino).

The engine lives in CryptnoxWallet.cpp (session-based variant): the secure-messaging
wrapper aes_cbc_encrypt / aes_cbc_decrypt, the session container CW_SecureSession with
clear and isSecureChannelOpen, the key derivation inside mutuallyAuthenticate, the
certificate-key extraction extractCardEphemeralKey, and disconnect.

Byte buffers are List Nat with every element below 256 at the call sites we evaluate.
The AES block primitive and SHA-512 come from external Arduino libraries (AESLib,
Crypto SHA512); the CBC chaining, the ISO 9797-1 Method 2 padding and the CBC-MAC
final-block convention are modelled from the spec section 4.1 and parameterized over
an abstract per-key block function, so every theorem quantifies over that primitive.
-/

namespace CryptnoxSDK

/-- Bytewise xor of two byte lists, as the CBC chaining step combines a block with
the previous ciphertext block. -/
def xorBytes (a b : List Nat) : List Nat :=
  List.zipWith (fun x y => Nat.xor x y) a b

/-- Fuel-driven split of a byte list into consecutive 16-byte blocks; the fuel is the
length of the list, enough because every step consumes at least one byte. -/
def toBlocksAux : Nat → List Nat → List (List Nat)
  | 0, _ => []
  | _ + 1, [] => []
  | fuel + 1, a :: rest => ((a :: rest).take 16) :: toBlocksAux fuel ((a :: rest).drop 16)

/-- Split a byte list into consecutive 16-byte blocks. -/
def toBlocks (l : List Nat) : List (List Nat) := toBlocksAux l.length l

/-- CBC encryption over a block list: each block is xored with the previous
ciphertext block (initially the IV) and passed through the keyed block function. -/
def cbcEncBlocks (E : List Nat → List Nat) : List Nat → List (List Nat) → List (List Nat)
  | _, [] => []
  | iv, b :: bs =>
    let c := E (xorBytes iv b)
    c :: cbcEncBlocks E c bs

/-- Modelled from the spec: AES-CBC encryption with no padding (AESLib encrypt with
paddingMode Null), parameterized over the per-key block function E. The input length
is a multiple of 16 at every call site of the engine. -/
def cbcEncryptNoPad (E : List Nat → List Nat → List Nat) (key iv dat : List Nat) : List Nat :=
  (cbcEncBlocks (E key) iv (toBlocks dat)).flatten

/-- Modelled from the spec: ISO/IEC 9797-1 Method 2 bit padding: append 0x80 then
zero bytes up to the next 16-byte boundary; a full block is appended when the input
is already a multiple of 16. -/
def padBit (d : List Nat) : List Nat :=
  d ++ 128 :: List.replicate (15 - d.length % 16) 0

/-- Modelled from the spec: AES-CBC encryption with bit padding (AESLib encrypt with
paddingMode Bit). -/
def cbcEncryptBitPad (E : List Nat → List Nat → List Nat) (key iv dat : List Nat) : List Nat :=
  cbcEncryptNoPad E key iv (padBit dat)

/-- All-zero 16-byte block, the CBC-MAC IV (mac_iv in the source). -/
def zeroBlock : List Nat := List.replicate 16 0

/-- Final 16 bytes of a byte list; the source reads the MAC from offset
encryptedLength - AES_BLOCK_SIZE of the CBC output. -/
def lastBlock16 (l : List Nat) : List Nat := l.drop (l.length - 16)

/-- AES-CBC-MAC as the engine computes it: CBC-encrypt the input under the MAC key
with an all-zero IV and no padding, and keep the final 16-byte block. -/
def cbcMac (E : List Nat → List Nat → List Nat) (key dat : List Nat) : List Nat :=
  lastBlock16 (cbcEncryptNoPad E key zeroBlock dat)

/-- CBC decryption over a block list, inverse chaining of cbcEncBlocks,
parameterized over the keyed inverse block function. -/
def cbcDecBlocks (D : List Nat → List Nat) : List Nat → List (List Nat) → List (List Nat)
  | _, [] => []
  | iv, c :: cs => xorBytes iv (D c) :: cbcDecBlocks D c cs

/-- Modelled from the spec: AES-CBC decryption with no padding removal, parameterized
over the per-key inverse block function D. -/
def cbcDecryptNoPad (D : List Nat → List Nat → List Nat) (key iv dat : List Nat) : List Nat :=
  (cbcDecBlocks (D key) iv (toBlocks dat)).flatten

/-- Modelled from the spec: removal of the Method 2 bit padding: strip trailing zero
bytes and then the 0x80 marker. -/
def unpadBit (d : List Nat) : List Nat :=
  let r := d.reverse.dropWhile (fun x => x == 0)
  match r with
  | 128 :: rest => rest.reverse
  | _ => r.reverse

/-- Session container of the engine (CW_SecureSession in CryptnoxWallet.h): the AES
session key, the MAC session key and the rolling IV. -/
structure CW_SecureSession where
  aesKey : List Nat
  macKey : List Nat
  iv : List Nat

/-- CW_SecureSession.clear of the source: zeroize all three fields. -/
def CW_SecureSession.clear (_s : CW_SecureSession) : CW_SecureSession :=
  ⟨List.replicate 32 0, List.replicate 32 0, List.replicate 16 0⟩

/-- A freshly constructed session: the CW_SecureSession constructor memsets all
fields to zero. -/
def freshSession : CW_SecureSession :=
  ⟨List.replicate 32 0, List.replicate 32 0, List.replicate 16 0⟩

/-- isSecureChannelOpen of the source: loop over the 32 bytes of aesKey and return
true as soon as one is non-zero; macKey and iv are never read. -/
def isSecureChannelOpen (s : CW_SecureSession) : Bool :=
  (List.range 32).any (fun i => s.aesKey.getD i 0 != 0)

/-- Modelled from the spec: the external NFC reader, reduced to a counter of
resetReader calls (the source forwards resetReader to PN532 SAMConfig). -/
structure NFCDriverState where
  resetCalls : Nat

/-- Reset of the external reader, modelled as one more recorded reset call. -/
def NFCDriverState.resetReader (t : NFCDriverState) : NFCDriverState :=
  ⟨t.resetCalls + 1⟩

/-- disconnect of the source: clear the session, then reset the reader. -/
def disconnect (s : CW_SecureSession) (t : NFCDriverState) :
    CW_SecureSession × NFCDriverState :=
  (s.clear, t.resetReader)

/-- checkStatusWord of the source: false when the response is shorter than two
bytes, otherwise compare the last two bytes with the expected status word. -/
def checkStatusWord (response : List Nat) (sw1e sw2e : Nat) : Bool :=
  if response.length < 2 then false
  else (response.getD (response.length - 2) 0 == sw1e) &&
       (response.getD (response.length - 1) 0 == sw2e)

/-- Command-side computation of aes_cbc_encrypt in the source: the ciphertext of the
bit-padded plaintext under the rolling IV, and the CBC-MAC over
apdu ++ (lengthByte :: eleven zero bytes) ++ ciphertext, where the length byte is
the uint8 truncation of encryptedLength + 16. Returns (macValue, encryptedData). -/
def secureParts (E : List Nat → List Nat → List Nat) (s : CW_SecureSession)
    (apdu dat : List Nat) : List Nat × List Nat :=
  let encryptedData := cbcEncryptBitPad E s.aesKey s.iv dat
  let macApdu := ((encryptedData.length + 16) % 256) :: List.replicate 11 0
  let macData := apdu ++ macApdu ++ encryptedData
  (cbcMac E s.macKey macData, encryptedData)

/-- aes_cbc_decrypt of the source. The response is MAC(16) ++ ciphertext ++ SW1 SW2.
The code sets cipherTextLen = response length - 2 (the received MAC is NOT
subtracted), fills a 32-byte buffer with the truncated length byte, fifteen zero
bytes and only the FIRST 16 bytes of the ciphertext, and CBC-MACs the first
cipherTextLen bytes of that buffer. On a MAC match it decrypts the first ciphertext
block with the SENT MAC as IV and removes the bit padding; on a mismatch it returns
false without decrypting. Result: (MAC ok, decrypted payload when executed). -/
def aes_cbc_decrypt (E D : List Nat → List Nat → List Nat) (s : CW_SecureSession)
    (response mac_value : List Nat) : Bool × Option (List Nat) :=
  let rep_mac := response.take 16
  let rep_data := response.drop 16
  let cipherTextLen := response.length - 2
  let mac_datar := ((cipherTextLen % 256) :: List.replicate 15 0) ++ rep_data.take 16
  let recomputedMacValue := cbcMac E s.macKey (mac_datar.take cipherTextLen)
  if recomputedMacValue = rep_mac then
    (true, some (unpadBit (cbcDecryptNoPad D s.aesKey mac_value (rep_data.take 16))))
  else
    (false, none)

/-- Outcome of one secure-messaging exchange: the transmitted APDU, the session
after the call, the aes_cbc_decrypt verdict when it ran, and the decrypted payload
when decryption was executed. -/
structure SecureExchangeResult where
  sent : List Nat
  session : CW_SecureSession
  macChecked : Option Bool
  decrypted : Option (List Nat)

/-- aes_cbc_encrypt of the source, parameterized by the bytes the card returns
(driver.sendAPDU is the external transport; a transport failure behaves like the
status-word failure branch: nothing further happens and the session is unchanged).
The code builds sent = apdu ++ lengthByte ++ macValue ++ ciphertext and transmits
it; only when the status word is 0x9000 does it copy the first 16 response bytes
into the rolling IV and then call aes_cbc_decrypt; the verdict of aes_cbc_decrypt
is ignored and on any other status word the session is left untouched. -/
def aes_cbc_encrypt (E D : List Nat → List Nat → List Nat) (s : CW_SecureSession)
    (apdu dat response : List Nat) : SecureExchangeResult :=
  let p := secureParts E s apdu dat
  let sent := apdu ++ [(p.2.length + 16) % 256] ++ p.1 ++ p.2
  if checkStatusWord response 144 0 then
    let s2 : CW_SecureSession := ⟨s.aesKey, s.macKey, response.take 16⟩
    let r := aes_cbc_decrypt E D s2 response p.1
    ⟨sent, s2, some r.1, r.2⟩
  else
    ⟨sent, s, none, none⟩

/-- verifyPin of the source: secure command with header 80 20 00 00 and the
hard-coded PIN 1234 (ASCII 31 32 33 34); no session-open check is performed. -/
def verifyPin (E D : List Nat → List Nat → List Nat) (s : CW_SecureSession)
    (response : List Nat) : SecureExchangeResult :=
  aes_cbc_encrypt E D s [128, 32, 0, 0] [49, 50, 51, 52] response

/-- getCardInfo of the source: secure command with header 80 FA 00 00 and a single
zero data byte; no session-open check is performed. -/
def getCardInfo (E D : List Nat → List Nat → List Nat) (s : CW_SecureSession)
    (response : List Nat) : SecureExchangeResult :=
  aes_cbc_encrypt E D s [128, 250, 0, 0] [0] response

/-- extractCardEphemeralKey of the source: the loop runs i = 0..64 over the
certificate and for i above 0 writes certificate byte 9 + i to output position
i - 1, so the output byte j is certificate byte 10 + j for j = 0..63. Bytes 0 and 9
of the certificate are never inspected and for non-null buffers the function always
reports success, modelled as an unconditional some. -/
def extractCardEphemeralKey (cardCertificate : List Nat) : Option (List Nat) :=
  some ((List.range 64).map (fun j => cardCertificate.getD (10 + j) 0))

/-- COMMON_PAIRING_DATA of the source, the ASCII bytes of the pairing string
without the null terminator (sizeof - 1 in the source). -/
def COMMON_PAIRING_DATA : List Nat :=
  [67, 114, 121, 112, 116, 110, 111, 120, 32, 66, 97, 115, 105, 99, 32,
   67, 111, 109, 109, 111, 110, 80, 97, 105, 114, 105, 110, 103, 68, 97, 116, 97]

/-- Key-derivation slice of mutuallyAuthenticate in the source: memcpy exactly 32
bytes of the ECDH shared secret, the 32 pairing bytes and exactly 32 bytes of the
salt into a 96-byte buffer, hash it with SHA-512 (the external hash, abstract
here), and split the digest into the AES key (first 32 bytes) and the MAC key
(next 32 bytes). -/
def mutuallyAuthDeriveKeys (sha512 : List Nat → List Nat)
    (sharedSecret salt : List Nat) : List Nat × List Nat :=
  let concat := sharedSecret.take 32 ++ COMMON_PAIRING_DATA ++ salt.take 32
  let digest := sha512 concat
  (digest.take 32, (digest.drop 32).take 32)

/-- Spec section 4.2 wording of the transmitted secure APDU: C is the AES-CBC
encryption of the bit-padded plaintext under k_enc and the rolling IV, M is the
final 16-byte block of AES-CBC over hdr4, the length byte, eleven zero bytes and C
under k_mac with an all-zero IV and no padding, and the wire format is
hdr4, the length byte, M, C. -/
def spec_wrapped_apdu (E : List Nat → List Nat → List Nat)
    (kenc kmac rollingIv hdr4 dat : List Nat) : List Nat :=
  let C := cbcEncryptBitPad E kenc rollingIv dat
  let M := lastBlock16 (cbcEncryptNoPad E kmac zeroBlock
    (hdr4 ++ [C.length + 16] ++ List.replicate 11 0 ++ C))
  hdr4 ++ [C.length + 16] ++ M ++ C

/-- Spec section 4.2 wording of the response MAC input: the length byte of the
ciphertext alone (response length minus 2 minus 16), fifteen zero bytes, then the
full ciphertext. -/
def spec_response_mac_input (response : List Nat) : List Nat :=
  let cLen := response.length - 2 - 16
  (cLen :: List.replicate 15 0) ++ (response.drop 16).take cLen

/-- Spec claim of the pairing string: the ASCII bytes of the 32-character string. -/
def specPairingString : List Nat :=
  "Cryptnox Basic CommonPairingData".toList.map Char.toNat

/-- Identity per-key block function, a concrete instance of the abstract AES block
primitive used to evaluate the engine on concrete inputs. -/
def idCipher : List Nat → List Nat → List Nat := fun _ b => b

/-- Concrete open session used for concrete evaluations. -/
def sessionA : CW_SecureSession :=
  ⟨List.replicate 32 7, List.replicate 32 9, List.replicate 16 2⟩

/-- Concrete 146-byte certificate with a wrong format byte (0x58 instead of the
character C) and a wrong point marker (0x03 instead of 0x04) at offset 9. -/
def certBad : List Nat := 88 :: (List.replicate 8 0 ++ (3 :: List.replicate 136 7))

/-- Concrete session whose AES key is non-zero while the MAC key and IV are
all-zero. -/
def sessionBadMac : CW_SecureSession :=
  ⟨1 :: List.replicate 31 0, List.replicate 32 0, List.replicate 16 0⟩

/-- Concrete 34-byte secure-messaging response, MAC block then one ciphertext
block then the status word 9000; under idCipher its leading MAC block matches the
MAC the engine recomputes. -/
def respC3 : List Nat := (37 :: List.replicate 15 5) ++ List.replicate 16 5 ++ [144, 0]

/-- Concrete response whose MAC verifies under the engine recomputation with
idCipher and sessionA; status word 9000. -/
def respLegit : List Nat := (37 :: List.replicate 15 5) ++ List.replicate 16 5 ++ [144, 0]

/-- respLegit with exactly one byte of its ciphertext portion mutated, the byte at
offset 16 changed from 5 to 4. -/
def respTampered : List Nat := (37 :: List.replicate 15 5) ++ (4 :: List.replicate 15 5) ++ [144, 0]

/-- Concrete response with a verifying MAC but status word 63C2 (wrong PIN, tries
left). -/
def respWrongPin : List Nat := (37 :: List.replicate 15 5) ++ List.replicate 16 5 ++ [99, 194]

set_option maxRecDepth 100000

/-- Equation lemma for aes_cbc_decrypt with its local bindings expanded. -/
lemma aes_cbc_decrypt_eq (E D : List Nat → List Nat → List Nat) (s : CW_SecureSession)
    (response macv : List Nat) :
    aes_cbc_decrypt E D s response macv =
      if cbcMac E s.macKey
          (((((response.length - 2) % 256) :: List.replicate 15 0) ++
            (response.drop 16).take 16).take (response.length - 2)) = response.take 16 then
        (true, some (unpadBit (cbcDecryptNoPad D s.aesKey macv ((response.drop 16).take 16))))
      else
        (false, none) := rfl

/-- Equation lemma for aes_cbc_encrypt with its local bindings expanded. -/
lemma aes_cbc_encrypt_eq (E D : List Nat → List Nat → List Nat) (s : CW_SecureSession)
    (apdu dat response : List Nat) :
    aes_cbc_encrypt E D s apdu dat response =
      if checkStatusWord response 144 0 then
        ⟨apdu ++ [((secureParts E s apdu dat).2.length + 16) % 256] ++
            (secureParts E s apdu dat).1 ++ (secureParts E s apdu dat).2,
          ⟨s.aesKey, s.macKey, response.take 16⟩,
          some (aes_cbc_decrypt E D ⟨s.aesKey, s.macKey, response.take 16⟩ response
            (secureParts E s apdu dat).1).1,
          (aes_cbc_decrypt E D ⟨s.aesKey, s.macKey, response.take 16⟩ response
            (secureParts E s apdu dat).1).2⟩
      else
        ⟨apdu ++ [((secureParts E s apdu dat).2.length + 16) % 256] ++
            (secureParts E s apdu dat).1 ++ (secureParts E s apdu dat).2, s, none, none⟩ := rfl

/-- When aes_cbc_decrypt reports a MAC mismatch, the decryption branch was not
executed. -/
lemma aes_cbc_decrypt_false_none (E D : List Nat → List Nat → List Nat)
    (s : CW_SecureSession) (response macv : List Nat)
    (h : (aes_cbc_decrypt E D s response macv).1 = false) :
    (aes_cbc_decrypt E D s response macv).2 = none := by
  rw [aes_cbc_decrypt_eq] at h ⊢
  split at h <;> simp_all

/-- Claim C1 counterexample: a certificate whose byte 0 is 0x58 rather than the
character C and whose byte 9 is 0x03 rather than 0x04 is still accepted by
extractCardEphemeralKey: extraction succeeds and returns the 64 bytes at offsets
10 to 73, so no InvalidCertificate abort happens and the handshake proceeds to
ECDH with that key. -/
theorem extract_no_marker_check_cex :
    certBad.getD 0 0 = 88 ∧ certBad.getD 9 0 = 3 ∧
    extractCardEphemeralKey certBad = some (List.replicate 64 7) ∧
    extractCardEphemeralKey certBad ≠ none := by decide

/-- Claim C1 (amended): the engine validates neither byte 0 nor byte 9 of the GET
CARD CERTIFICATE payload; for every 146-byte certificate, extractCardEphemeralKey
unconditionally succeeds and returns bytes 10 to 73 as the card ephemeral key, so
the handshake continues into ECDH regardless of the marker bytes. -/
theorem extract_unconditional (cert : List Nat) (h : cert.length = 146) :
    extractCardEphemeralKey cert = some ((cert.drop 10).take 64) := by
  unfold extractCardEphemeralKey
  congr 1
  apply List.ext_getElem
  · simp [h]
  · intro i h1 h2
    simp only [List.getElem_map, List.getElem_range]
    rw [List.getD_eq_getElem _ _ (by simp at h1 ⊢; omega)]
    rw [List.getElem_take, List.getElem_drop]

/-- Claim C1 witness: the amended statement evaluated on the concrete certificate
certBad. -/
theorem extract_unconditional_witness :
    certBad.length = 146 ∧
    extractCardEphemeralKey certBad = some ((certBad.drop 10).take 64) :=
  ⟨by decide, extract_unconditional certBad (by decide)⟩

/-- Claim C2: for every secure application command with a 4-byte header and
plaintext D on an open session, with the ciphertext-plus-MAC length below 256 so
that the one-byte length field is exact, the transmitted APDU equals hdr4, the
one-byte length of C plus 16, then M, then C, where C is the AES-CBC encryption
of the bit-padded D under the encryption key and the rolling IV, and M is the
final 16-byte block of AES-CBC over hdr4, the length byte, eleven zero bytes and
C under the MAC key with an all-zero IV and no padding. -/
theorem secure_command_wire_format (E D : List Nat → List Nat → List Nat)
    (s : CW_SecureSession) (hdr4 dat response : List Nat)
    (_hhdr : hdr4.length = 4)
    (hlen : (cbcEncryptBitPad E s.aesKey s.iv dat).length + 16 ≤ 255) :
    (aes_cbc_encrypt E D s hdr4 dat response).sent =
      spec_wrapped_apdu E s.aesKey s.macKey s.iv hdr4 dat := by
  have hmod : ((cbcEncryptBitPad E s.aesKey s.iv dat).length + 16) % 256 =
      (cbcEncryptBitPad E s.aesKey s.iv dat).length + 16 := Nat.mod_eq_of_lt (by omega)
  unfold aes_cbc_encrypt secureParts spec_wrapped_apdu
  split <;> simp [cbcMac, hmod]

/-- Claim C2 witness: the wire format evaluated on the VERIFY PIN command under a
concrete session and block cipher. -/
theorem secure_command_wire_format_witness :
    ([128, 32, 0, 0] : List Nat).length = 4 ∧
    (cbcEncryptBitPad idCipher sessionA.aesKey sessionA.iv [49, 50, 51, 52]).length + 16 ≤ 255 ∧
    (aes_cbc_encrypt idCipher idCipher sessionA [128, 32, 0, 0] [49, 50, 51, 52] [144, 0]).sent =
      spec_wrapped_apdu idCipher sessionA.aesKey sessionA.macKey sessionA.iv
        [128, 32, 0, 0] [49, 50, 51, 52] :=
  ⟨by decide, by decide,
    secure_command_wire_format idCipher idCipher sessionA [128, 32, 0, 0] [49, 50, 51, 52]
      [144, 0] (by decide) (by decide)⟩

/-- Claim C3 counterexample: on a 34-byte response whose ciphertext length is a
multiple of 16, the engine accepts the MAC (no MacMismatch) even though the MAC
recomputed according to the claim, over the length byte of the response length
minus 18 followed by fifteen zero bytes and the full ciphertext, differs from the
received MAC: the code uses the length byte response length minus 2 and MACs the
received MAC-sized slice instead. -/
theorem response_mac_length_cex :
    (respC3.length - 2 - 16) % 16 = 0 ∧
    (aes_cbc_decrypt idCipher idCipher sessionA respC3 zeroBlock).1 = true ∧
    cbcMac idCipher sessionA.macKey (spec_response_mac_input respC3) ≠ respC3.take 16 := by
  decide

/-- Claim C3 (amended): for every 34-byte response (one ciphertext block), the
verifier sets the length to the response length minus 2 — the 16-byte received
MAC is included in the count — performs no multiple-of-16 check, recomputes the
MAC over the byte 32, fifteen zero bytes and the single ciphertext block, and
reports MacMismatch exactly when that value differs from the received MAC. -/
theorem response_mac_uses_full_length_byte (E D : List Nat → List Nat → List Nat)
    (s : CW_SecureSession) (response macv : List Nat) (h : response.length = 34) :
    ((aes_cbc_decrypt E D s response macv).1 = false ↔
      cbcMac E s.macKey ((32 :: List.replicate 15 0) ++ (response.drop 16).take 16) ≠
        response.take 16) := by
  rw [aes_cbc_decrypt_eq]
  have h2 : response.length - 2 = 32 := by omega
  rw [h2, show (32 : Nat) % 256 = 32 from rfl]
  have htake : (((32 : Nat) :: List.replicate 15 0) ++ (response.drop 16).take 16).take 32 =
      ((32 : Nat) :: List.replicate 15 0) ++ (response.drop 16).take 16 :=
    List.take_of_length_le (by simp [h])
  rw [htake]
  split <;> simp_all

/-- Claim C3 witness: the amended statement evaluated on the concrete response
respC3. -/
theorem response_mac_uses_full_length_byte_witness :
    respC3.length = 34 ∧
    ((aes_cbc_decrypt idCipher idCipher sessionA respC3 zeroBlock).1 = false ↔
      cbcMac idCipher sessionA.macKey
          ((32 :: List.replicate 15 0) ++ (respC3.drop 16).take 16) ≠ respC3.take 16) :=
  ⟨by decide, response_mac_uses_full_length_byte idCipher idCipher sessionA respC3 zeroBlock
    (by decide)⟩

/-- Claim C4 counterexample: respTampered is respLegit with exactly one byte of
the ciphertext portion mutated; the untampered response passes MAC verification,
the tampered one yields a MAC mismatch and the decryption is not executed — but
the session is NOT cleared: its AES key is untouched, isSecureChannelOpen still
returns true, and a subsequent secure command still transmits an APDU instead of
returning SessionClosed. -/
theorem tampered_response_session_not_cleared_cex :
    respTampered = respLegit.set 16 4 ∧
    (verifyPin idCipher idCipher sessionA respLegit).macChecked = some true ∧
    (verifyPin idCipher idCipher sessionA respTampered).macChecked = some false ∧
    (verifyPin idCipher idCipher sessionA respTampered).decrypted = none ∧
    (verifyPin idCipher idCipher sessionA respTampered).session.aesKey = List.replicate 32 7 ∧
    isSecureChannelOpen (verifyPin idCipher idCipher sessionA respTampered).session = true ∧
    (getCardInfo idCipher idCipher (verifyPin idCipher idCipher sessionA respTampered).session
      [144, 0]).sent ≠ [] := by decide

/-- Claim C4 (amended): when the status word is 9000 and the recomputed MAC
differs from the received one, the engine reports the mismatch and does not
execute the decryption, but it does not clear the session: the keys are
unchanged and the rolling IV has already been overwritten with the first 16
bytes of the tampered response before verification. -/
theorem mac_mismatch_no_decrypt_session_kept (E D : List Nat → List Nat → List Nat)
    (s : CW_SecureSession) (apdu dat response : List Nat)
    (hsw : checkStatusWord response 144 0 = true)
    (hmm : (aes_cbc_encrypt E D s apdu dat response).macChecked = some false) :
    (aes_cbc_encrypt E D s apdu dat response).decrypted = none ∧
    (aes_cbc_encrypt E D s apdu dat response).session.aesKey = s.aesKey ∧
    (aes_cbc_encrypt E D s apdu dat response).session.macKey = s.macKey ∧
    (aes_cbc_encrypt E D s apdu dat response).session.iv = response.take 16 := by
  rw [aes_cbc_encrypt_eq, if_pos hsw] at hmm ⊢
  simp only [Option.some.injEq] at hmm
  exact ⟨aes_cbc_decrypt_false_none _ _ _ _ _ hmm, rfl, rfl, rfl⟩

/-- Claim C4 witness: the amended statement evaluated on the concrete tampered
response. -/
theorem mac_mismatch_no_decrypt_session_kept_witness :
    checkStatusWord respTampered 144 0 = true ∧
    (aes_cbc_encrypt idCipher idCipher sessionA [128, 32, 0, 0] [49, 50, 51, 52]
      respTampered).macChecked = some false ∧
    ((aes_cbc_encrypt idCipher idCipher sessionA [128, 32, 0, 0] [49, 50, 51, 52]
        respTampered).decrypted = none ∧
      (aes_cbc_encrypt idCipher idCipher sessionA [128, 32, 0, 0] [49, 50, 51, 52]
        respTampered).session.aesKey = sessionA.aesKey ∧
      (aes_cbc_encrypt idCipher idCipher sessionA [128, 32, 0, 0] [49, 50, 51, 52]
        respTampered).session.macKey = sessionA.macKey ∧
      (aes_cbc_encrypt idCipher idCipher sessionA [128, 32, 0, 0] [49, 50, 51, 52]
        respTampered).session.iv = respTampered.take 16) :=
  ⟨by decide, by decide,
    mac_mismatch_no_decrypt_session_kept idCipher idCipher sessionA [128, 32, 0, 0]
      [49, 50, 51, 52] respTampered (by decide) (by decide)⟩

/-- Claim C5 counterexample: on a response whose MAC verifies in the code MAC
convention but whose status word is 63C2, the engine never verifies the MAC
(macChecked is none, so no AppStatus result with the status word and body is
produced) and the rolling IV is NOT updated to the response MAC: it keeps its
previous value, which differs from the first 16 response bytes. -/
theorem app_status_iv_not_rolled_cex :
    cbcMac idCipher sessionA.macKey
      (((respWrongPin.length - 2) % 256 :: List.replicate 15 0) ++
        (respWrongPin.drop 16).take 16) = respWrongPin.take 16 ∧
    (verifyPin idCipher idCipher sessionA respWrongPin).macChecked = none ∧
    (verifyPin idCipher idCipher sessionA respWrongPin).session.iv = List.replicate 16 2 ∧
    List.replicate 16 2 ≠ respWrongPin.take 16 := by decide

/-- Claim C5 (amended): when the status word is not 9000, the engine checks the
status word before any MAC work and returns without touching the session: the
MAC is not verified, nothing is decrypted, no status and body reach the caller,
and the session — keys and rolling IV alike — is exactly the one before the
call. -/
theorem non9000_skips_mac_and_iv (E D : List Nat → List Nat → List Nat)
    (s : CW_SecureSession) (apdu dat response : List Nat)
    (hsw : checkStatusWord response 144 0 = false) :
    (aes_cbc_encrypt E D s apdu dat response).session = s ∧
    (aes_cbc_encrypt E D s apdu dat response).macChecked = none ∧
    (aes_cbc_encrypt E D s apdu dat response).decrypted = none := by
  rw [aes_cbc_encrypt_eq, if_neg (by simp [hsw])]
  exact ⟨rfl, rfl, rfl⟩

/-- Claim C5 witness: the amended statement evaluated on the concrete wrong-PIN
response. -/
theorem non9000_skips_mac_and_iv_witness :
    checkStatusWord respWrongPin 144 0 = false ∧
    ((verifyPin idCipher idCipher sessionA respWrongPin).session = sessionA ∧
      (verifyPin idCipher idCipher sessionA respWrongPin).macChecked = none ∧
      (verifyPin idCipher idCipher sessionA respWrongPin).decrypted = none) :=
  ⟨by decide,
    non9000_skips_mac_and_iv idCipher idCipher sessionA [128, 32, 0, 0] [49, 50, 51, 52]
      respWrongPin (by decide)⟩

/-- Claim C6 counterexample: on a freshly created session (all keys and IV zero,
isSecureChannelOpen false), verifyPin is not rejected: it encrypts under the
all-zero keys and transmits the 37-byte VERIFY PIN secure APDU shown, and
getCardInfo likewise transmits an APDU; no SessionClosed result exists. -/
theorem fresh_session_sends_apdu_cex :
    isSecureChannelOpen freshSession = false ∧
    (verifyPin idCipher idCipher freshSession [144, 0]).sent =
      [128, 32, 0, 0, 32, 177, 18, 51, 52, 160, 0, 0, 0, 0, 0, 0, 0, 0, 0, 0, 0,
       49, 50, 51, 52, 128, 0, 0, 0, 0, 0, 0, 0, 0, 0, 0, 0] ∧
    (getCardInfo idCipher idCipher freshSession [144, 0]).sent ≠ [] := by decide

/-- Claim C6 (amended): the secure-messaging path performs no session-open check:
on a freshly created session every secure command still builds and transmits a
non-empty APDU that begins with the given command header, even though
isSecureChannelOpen returns false; rejection is left entirely to callers. -/
theorem fresh_session_no_rejection (E D : List Nat → List Nat → List Nat)
    (apdu dat response : List Nat) :
    (aes_cbc_encrypt E D freshSession apdu dat response).sent.take apdu.length = apdu ∧
    (aes_cbc_encrypt E D freshSession apdu dat response).sent ≠ [] ∧
    isSecureChannelOpen freshSession = false := by
  rw [aes_cbc_encrypt_eq]
  refine ⟨?_, ?_, by decide⟩
  · split <;> (dsimp only; rw [List.append_assoc, List.append_assoc]; exact List.take_left _ _)
  · split <;> simp

/-- Claim C7: after a successful ECDH, the session keys are derived as the first
and second 32-byte halves of the SHA-512 digest of the 32-byte shared secret,
the exact 32-byte ASCII pairing string and the 32-byte salt, and the hard-coded
pairing constant equals the ASCII bytes of the string with no null terminator. -/
theorem session_key_derivation (sha512 : List Nat → List Nat) (z salt : List Nat)
    (hz : z.length = 32) (hs : salt.length = 32) :
    mutuallyAuthDeriveKeys sha512 z salt =
      ((sha512 (z ++ specPairingString ++ salt)).take 32,
       ((sha512 (z ++ specPairingString ++ salt)).drop 32).take 32) ∧
    specPairingString.length = 32 ∧
    COMMON_PAIRING_DATA = specPairingString := by
  have hp : COMMON_PAIRING_DATA = specPairingString := by decide
  have h1 : z.take 32 = z := by rw [← hz]; exact List.take_length z
  have h2 : salt.take 32 = salt := by rw [← hs]; exact List.take_length salt
  refine ⟨?_, by decide, hp⟩
  simp only [mutuallyAuthDeriveKeys, h1, h2, hp]

/-- Claim C7 witness: the derivation evaluated on concrete 32-byte inputs with
the identity in place of the abstract hash. -/
theorem session_key_derivation_witness :
    (List.replicate 32 1).length = 32 ∧ (List.replicate 32 2).length = 32 ∧
    (mutuallyAuthDeriveKeys (fun l => l) (List.replicate 32 1) (List.replicate 32 2) =
      (((List.replicate 32 1 ++ specPairingString ++ List.replicate 32 2)).take 32,
       (((List.replicate 32 1 ++ specPairingString ++ List.replicate 32 2)).drop 32).take 32) ∧
      specPairingString.length = 32 ∧
      COMMON_PAIRING_DATA = specPairingString) :=
  ⟨by decide, by decide,
    session_key_derivation (fun l => l) (List.replicate 32 1) (List.replicate 32 2)
      (by decide) (by decide)⟩

/-- Claim C8 counterexample: a session with a non-zero AES key but an all-zero
MAC key and an all-zero IV is reported open by isSecureChannelOpen, although the
claim requires is_open to be false whenever the MAC key or the IV is all-zero. -/
theorem is_open_ignores_mac_key_cex :
    isSecureChannelOpen sessionBadMac = true ∧
    sessionBadMac.macKey = List.replicate 32 0 ∧
    sessionBadMac.iv = List.replicate 16 0 := by decide

/-- Claim C8 (amended): for every session with a 32-byte AES key,
isSecureChannelOpen returns true exactly when the AES encryption key is not
all-zero; the MAC key and the IV are never consulted. -/
theorem is_open_iff_aes_key_nonzero (s : CW_SecureSession) (h : s.aesKey.length = 32) :
    (isSecureChannelOpen s = true ↔ s.aesKey ≠ List.replicate 32 0) := by
  have hrep : ∀ i : Nat, (List.replicate 32 (0 : Nat)).getD i 0 = 0 := by
    intro i
    rcases Nat.lt_or_ge i 32 with hi | hi
    · rw [List.getD_eq_getElem _ _ (by simpa using hi), List.getElem_replicate]
    · have hle : (List.replicate 32 (0 : Nat)).length ≤ i := by simpa using hi
      rw [List.getD_eq_getElem?_getD, List.getElem?_eq_none hle]
      rfl
  unfold isSecureChannelOpen
  rw [List.any_eq_true]
  constructor
  · rintro ⟨i, hmem, hne⟩ heq
    simp only [bne_iff_ne, ne_eq] at hne
    exact hne (by rw [heq]; exact hrep i)
  · intro hne
    by_contra hall
    push_neg at hall
    apply hne
    have hz : ∀ b ∈ s.aesKey, b = 0 := by
      intro b hb
      obtain ⟨i, hi, rfl⟩ := List.mem_iff_getElem.mp hb
      have hlt : i < 32 := by omega
      have := hall i (List.mem_range.mpr hlt)
      simp only [bne_iff_ne, ne_eq, not_not] at this
      rw [List.getD_eq_getElem _ _ hi] at this
      exact this
    calc s.aesKey = List.replicate s.aesKey.length 0 := List.eq_replicate_length.mpr hz
    _ = List.replicate 32 0 := by rw [h]

/-- Claim C8 witness: the amended statement evaluated on the concrete session
sessionBadMac. -/
theorem is_open_iff_aes_key_nonzero_witness :
    sessionBadMac.aesKey.length = 32 ∧
    (isSecureChannelOpen sessionBadMac = true ↔
      sessionBadMac.aesKey ≠ List.replicate 32 0) :=
  ⟨by decide, is_open_iff_aes_key_nonzero sessionBadMac (by decide)⟩

/-- Claim C9: after disconnect on any session, open or already closed, the AES
key, MAC key and IV are all zero, isSecureChannelOpen returns false, and the
transport reader has been reset exactly once more. -/
theorem disconnect_zeroizes_and_resets (s : CW_SecureSession) (t : NFCDriverState) :
    (disconnect s t).1.aesKey = List.replicate 32 0 ∧
    (disconnect s t).1.macKey = List.replicate 32 0 ∧
    (disconnect s t).1.iv = List.replicate 16 0 ∧
    isSecureChannelOpen (disconnect s t).1 = false ∧
    (disconnect s t).2.resetCalls = t.resetCalls + 1 :=
  ⟨rfl, rfl, rfl, rfl, rfl⟩

end CryptnoxSDK
